import Mathlib

/-!
# The CAST round macro `E_CAST` of `crypto/cast/cast_local.h`

A shallow embedding of the header `crypto/cast/cast_local.h`: the rotate macro
`ROTL`, the offset constants `C_M`, `C_0` .. `C_3`, and the three variants of the
round macro `E_CAST` (the `CAST_PTR` one, the `CAST_PTR2` one and the generic
byte-indexed one).

Conventions of the embedding.

* A `CAST_LONG` is a natural number below `2 ^ W`, where `W` is the width of the type
  in bits.  The header does not declare `CAST_LONG`, so `W` is a parameter of every
  definition; the results are stated for `32 ≤ W` (for `W = 32` where the byte layout
  of a table matters).  Every constant mask of the header is kept as it is written.
* A substitution table is the list of its words; `tbl[i]?` is `none` outside the table.
* A macro invocation `E_CAST(n,key,L,R,OP1,OP2,OP3)` reads and writes the variables of
  its caller: the key array, the two block halves passed as `L` and `R`, and the
  scratch word `t`.  They form the state `CastState`; the macro is a function from
  states to `Option CastState`, `none` when a read falls outside an array.
* C leaves a shift by the width of the type or more undefined.  The embedding computes
  the mathematical shift there; the rotation amounts of a key schedule are `0 .. 31`.
-/

namespace Cast

set_option maxRecDepth 100000

/-- The C operator tokens that the callers of `E_CAST` substitute for `OP1`, `OP2`
and `OP3`: `+`, `^` and `-`. -/
inductive Op where
  | add
  | xor
  | sub
  deriving DecidableEq, Repr

/-- Value of the C expression `x OP y` on two `CAST_LONG` operands of width `W` bits:
unsigned addition and subtraction wrap modulo `2 ^ W`. -/
def Op.ap (W : Nat) : Op → Nat → Nat → Nat
  | .add, x, y => (x + y) % 2 ^ W
  | .xor, x, y => x ^^^ y
  | .sub, x, y => (x + 2 ^ W - y) % 2 ^ W

/-- Value of the C expression `t OP p & 0xffffffffL`, written without parentheses
around `t OP p` as in the last statements of the `CAST_PTR2` variant: `&` binds tighter
than `^` and looser than `+` and `-`. -/
def Op.apMaskRight (W : Nat) : Op → Nat → Nat → Nat
  | .add, t, p => ((t + p) % 2 ^ W) &&& 0xffffffff
  | .xor, t, p => t ^^^ (p &&& 0xffffffff)
  | .sub, t, p => ((t + 2 ^ W - p) % 2 ^ W) &&& 0xffffffff

/-- The macro `ROTL(a,n)` (the branch that is not the MSVC intrinsic):
`((((a)<<(n))&0xffffffffL)|((a)>>((32-(n))&31)))`, with `a` and `n` of width `W`. -/
def ROTL (W a n : Nat) : Nat :=
  (((a <<< n) % 2 ^ W) &&& 0xffffffff) ||| (a >>> (((32 + 2 ^ W - n) % 2 ^ W) &&& 31))

/-- The macro `C_M`. -/
def C_M : Nat := 0x3fc

/-- The macro `C_0`. -/
def C_0 : Nat := 22

/-- The macro `C_1`. -/
def C_1 : Nat := 14

/-- The macro `C_2`. -/
def C_2 : Nat := 6

/-- The macro `C_3`, a left shift. -/
def C_3 : Nat := 2

/-- The eight tables `CAST_S_table0` .. `CAST_S_table7` that the header declares
`extern const CAST_LONG [256]`; their contents are defined elsewhere. -/
structure STables where
  CAST_S_table0 : List Nat
  CAST_S_table1 : List Nat
  CAST_S_table2 : List Nat
  CAST_S_table3 : List Nat
  CAST_S_table4 : List Nat
  CAST_S_table5 : List Nat
  CAST_S_table6 : List Nat
  CAST_S_table7 : List Nat
  deriving DecidableEq, Repr

/-- The caller variables that an invocation `E_CAST(n,key,L,R,OP1,OP2,OP3)` touches:
the key array `key`, the halves passed as `L` and `R`, and the scratch word `t`. -/
structure CastState where
  key : List Nat
  L : Nat
  R : Nat
  t : Nat
  deriving DecidableEq, Repr

/-- The read `*(CAST_LONG *)((unsigned char *)tbl + off)` of the pointer variants: the
table entry that starts `off` bytes into the table.  An entry occupies `W / 8` bytes, so
the read yields entry `off / (W / 8)` when `off` is a multiple of the entry size, and
addresses no entry otherwise. -/
def loadAt (W : Nat) (tbl : List Nat) (off : Nat) : Option Nat :=
  if off % (W / 8) = 0 then tbl[off / (W / 8)]? else none

/-- The generic (byte-indexed) `E_CAST(n,key,L,R,OP1,OP2,OP3)`. -/
def E_CAST (W : Nat) (S : STables) (n : Nat) (op1 op2 op3 : Op) (s : CastState) :
    Option CastState := do
  let k0 ← s.key[n * 2]?
  let t := (op1.ap W k0 s.R) &&& 0xffffffff
  let k1 ← s.key[n * 2 + 1]?
  let t := ROTL W t k1
  let a ← S.CAST_S_table0[(t >>> 8) &&& 0xff]?
  let b ← S.CAST_S_table1[t &&& 0xff]?
  let c ← S.CAST_S_table2[(t >>> 24) &&& 0xff]?
  let d ← S.CAST_S_table3[(t >>> 16) &&& 0xff]?
  pure { s with
    L := s.L ^^^ ((op1.ap W ((op3.ap W ((op2.ap W a b) &&& 0xffffffff) c) &&& 0xffffffff) d)
      &&& 0xffffffff)
    t := t }

/-- The `CAST_PTR` variant of `E_CAST(n,key,L,R,OP1,OP2,OP3)`.  Its `int i` holds the
rotation amount `key[n*2+1]`, unchanged by the conversion when it is below `2 ^ 31`. -/
def E_CAST_PTR (W : Nat) (S : STables) (n : Nat) (op1 op2 op3 : Op) (s : CastState) :
    Option CastState := do
  let k0 ← s.key[n * 2]?
  let t := (op1.ap W k0 s.R) &&& 0xffffffff
  let i ← s.key[n * 2 + 1]?
  let t := ROTL W t i
  let p0 ← loadAt W S.CAST_S_table0 ((t >>> C_2) &&& C_M)
  let p1 ← loadAt W S.CAST_S_table1 (((t <<< C_3) % 2 ^ W) &&& C_M)
  let p2 ← loadAt W S.CAST_S_table2 ((t >>> C_0) &&& C_M)
  let p3 ← loadAt W S.CAST_S_table3 ((t >>> C_1) &&& C_M)
  pure { s with
    L := s.L ^^^ ((op1.ap W ((op3.ap W ((op2.ap W p0 p1) &&& 0xffffffff) p2) &&& 0xffffffff) p3)
      &&& 0xffffffff)
    t := t }

/-- The `CAST_PTR2` variant of `E_CAST(n,key,L,R,OP1,OP2,OP3)`; `u`, `v`, `w` are its
local words and `i` its local `int`, as in the `CAST_PTR` variant. -/
def E_CAST_PTR2 (W : Nat) (S : STables) (n : Nat) (op1 op2 op3 : Op) (s : CastState) :
    Option CastState := do
  let k0 ← s.key[n * 2]?
  let w := (op1.ap W k0 s.R) &&& 0xffffffff
  let i ← s.key[n * 2 + 1]?
  let w := ROTL W w i
  let u := w >>> C_2
  let v := (w <<< C_3) % 2 ^ W
  let u := u &&& C_M
  let v := v &&& C_M
  let t ← loadAt W S.CAST_S_table0 u
  let u := w >>> C_0
  let p1 ← loadAt W S.CAST_S_table1 v
  let t := (op2.ap W t p1) &&& 0xffffffff
  let v := w >>> C_1
  let u := u &&& C_M
  let v := v &&& C_M
  let p2 ← loadAt W S.CAST_S_table2 u
  let t := op3.apMaskRight W t p2
  let p3 ← loadAt W S.CAST_S_table3 v
  let t := op1.apMaskRight W t p3
  pure { s with L := s.L ^^^ (t &&& 0xffffffff), t := t }

/-! ## Vocabulary of the specification -/

/-- The operation `x OP y` "truncated to 32 bits" of the specification: addition and
subtraction modulo `2 ^ 32` and bitwise exclusive or. -/
def Op.wrap32 : Op → Nat → Nat → Nat
  | .add, x, y => (x + y) % 2 ^ 32
  | .xor, x, y => (x ^^^ y) % 2 ^ 32
  | .sub, x, y => (x + 2 ^ 32 - y) % 2 ^ 32

/-- The generic rotate formula of the specification: a 32-bit word `a` rotated left by
`n` positions, the bits leaving at the top re-entering at the bottom. -/
def rotl32 (a n : Nat) : Nat :=
  (a * 2 ^ n) % 2 ^ 32 + a / 2 ^ (32 - n)

/-- The round function `f` of the published CAST-128 description, for one round type
given by its operators: `I = ((Km OP1 D) mod 2^32) <<< Kr`, `Ia .. Id` the bytes of `I`
from the most to the least significant, and
`f = ((S1[Ia] OP2 S2[Ib]) OP3 S3[Ic]) OP1 S4[Id]` modulo `2 ^ 32`. -/
def cast128_f (S1 S2 S3 S4 : List Nat) (op1 op2 op3 : Op) (Km Kr D : Nat) : Nat :=
  let I := rotl32 (op1.wrap32 Km D) Kr
  let Ia := I / 2 ^ 24 % 256
  let Ib := I / 2 ^ 16 % 256
  let Ic := I / 2 ^ 8 % 256
  let Id := I % 256
  op1.wrap32 (op3.wrap32 (op2.wrap32 (S1.getD Ia 0) (S2.getD Ib 0)) (S3.getD Ic 0))
    (S4.getD Id 0)

/-- The tables have the length the header declares for them, `[256]`. -/
def STables.Declared (S : STables) : Prop :=
  S.CAST_S_table0.length = 256 ∧ S.CAST_S_table1.length = 256 ∧
  S.CAST_S_table2.length = 256 ∧ S.CAST_S_table3.length = 256 ∧
  S.CAST_S_table4.length = 256 ∧ S.CAST_S_table5.length = 256 ∧
  S.CAST_S_table6.length = 256 ∧ S.CAST_S_table7.length = 256

instance (S : STables) : Decidable S.Declared := by
  unfold STables.Declared; infer_instance

/-- Every word of the four tables that `E_CAST` reads is a 32-bit word. -/
def STables.Words32 (S : STables) : Prop :=
  (∀ x ∈ S.CAST_S_table0, x < 2 ^ 32) ∧ (∀ x ∈ S.CAST_S_table1, x < 2 ^ 32) ∧
  (∀ x ∈ S.CAST_S_table2, x < 2 ^ 32) ∧ (∀ x ∈ S.CAST_S_table3, x < 2 ^ 32)

instance (S : STables) : Decidable S.Words32 := by
  unfold STables.Words32; infer_instance

/-! ## Concrete inputs used to exercise the results -/

/-- A table set of the declared shape whose entries differ from index to index and
from table to table. -/
def demoTables : STables where
  CAST_S_table0 := (List.range 256).map (fun i => i * 0x01010101)
  CAST_S_table1 := (List.range 256).map (fun i => 0xfffffff0 - i * 3)
  CAST_S_table2 := (List.range 256).map (fun i => i * 77777 + 5)
  CAST_S_table3 := (List.range 256).map (fun i => 0x80000000 + i)
  CAST_S_table4 := List.replicate 256 4
  CAST_S_table5 := List.replicate 256 5
  CAST_S_table6 := List.replicate 256 6
  CAST_S_table7 := List.replicate 256 7

/-- A table set of the declared shape with every entry equal to one. -/
def onesTables : STables where
  CAST_S_table0 := List.replicate 256 1
  CAST_S_table1 := List.replicate 256 1
  CAST_S_table2 := List.replicate 256 1
  CAST_S_table3 := List.replicate 256 1
  CAST_S_table4 := List.replicate 256 1
  CAST_S_table5 := List.replicate 256 1
  CAST_S_table6 := List.replicate 256 1
  CAST_S_table7 := List.replicate 256 1

/-- A caller state: a two-word key `(0x12345678, 5)`, `L = 7`, `R = 0xdeadbeef`. -/
def demoState : CastState := ⟨[0x12345678, 5], 7, 0xdeadbeef, 0⟩

/-- The caller state of the all-zero scenario: key word 0, rotation 0, `L = R = 0`. -/
def zeroState : CastState := ⟨[0, 0], 0, 0, 0⟩

/-- A caller state with masking key 1, rotation 0, `L = 0` and `R = 1`. -/
def unitState : CastState := ⟨[1, 0], 0, 1, 0⟩

/-- A table set that agrees with `demoTables` on tables 0-3 and differs on tables
4-7. -/
def otherTables : STables :=
  { demoTables with
    CAST_S_table4 := List.replicate 256 40
    CAST_S_table5 := List.replicate 256 50
    CAST_S_table6 := List.replicate 256 60
    CAST_S_table7 := List.replicate 256 70 }

/-- A caller state whose key entries for round 1 are `(0x12345678, 5)`, with `L = 7` and
`R = 0xdeadbeef`. -/
def roundOneState : CastState := ⟨[11, 12, 0x12345678, 5], 7, 0xdeadbeef, 0⟩

/-- A caller state that agrees with `roundOneState` on the key entries of round 1, on
`L` and on `R`, and differs in the other key entries and in the scratch word. -/
def roundOneOther : CastState := ⟨[21, 22, 0x12345678, 5, 23], 7, 0xdeadbeef, 42⟩

/-! ## Masks, shifts and wraparound -/

theorem and_mask32 (x : Nat) : x &&& 0xffffffff = x % 2 ^ 32 :=
  Nat.and_pow_two_sub_one_eq_mod x 32

theorem and_mask8 (x : Nat) : x &&& 0xff = x % 256 :=
  Nat.and_pow_two_sub_one_eq_mod x 8

theorem and_mask5 (x : Nat) : x &&& 31 = x % 32 :=
  Nat.and_pow_two_sub_one_eq_mod x 5

theorem and_C_M (x : Nat) : x &&& C_M = 4 * (x / 4 % 256) := by
  have h : C_M = (2 ^ 8 - 1) <<< 2 := by decide
  rw [h]
  apply Nat.eq_of_testBit_eq
  intro i
  have h4 : 4 * (x / 4 % 256) = (x >>> 2 % 2 ^ 8) <<< 2 := by
    rw [Nat.shiftLeft_eq, Nat.shiftRight_eq_div_pow]; norm_num; ring
  rw [h4]
  simp only [Nat.testBit_and, Nat.testBit_shiftLeft, Nat.testBit_two_pow_sub_one,
    Nat.testBit_mod_two_pow, Nat.testBit_shiftRight]
  by_cases hi : 2 ≤ i
  · have : 2 + (i - 2) = i := by omega
    simp [hi, this, Bool.and_comm]
  · simp [hi]

theorem two_pow_W_ge (W : Nat) (hW : 32 ≤ W) : 2 ^ 32 ≤ 2 ^ W :=
  Nat.pow_le_pow_right (by decide) hW

theorem two_pow_W_split (W : Nat) (hW : 32 ≤ W) : 2 ^ W = 2 ^ 32 * 2 ^ (W - 32) := by
  rw [← pow_add]; congr 1; omega

theorem mod_W_mod32 (W : Nat) (hW : 32 ≤ W) (x : Nat) : x % 2 ^ W % 2 ^ 32 = x % 2 ^ 32 :=
  Nat.mod_mod_of_dvd x (pow_dvd_pow 2 hW)

/-- A masked operator application is the operation modulo `2 ^ 32`, whatever the width
of the type it was carried out in. -/
theorem ap_mask32 (W : Nat) (hW : 32 ≤ W) (op : Op) (x y : Nat) (hy : y < 2 ^ 32) :
    (op.ap W x y) &&& 0xffffffff = op.wrap32 x y := by
  rw [and_mask32]
  cases op with
  | add => simp only [Op.ap, Op.wrap32]; exact mod_W_mod32 W hW _
  | xor => simp only [Op.ap, Op.wrap32]
  | sub =>
    simp only [Op.ap, Op.wrap32]
    rw [mod_W_mod32 W hW, two_pow_W_split W hW]
    have hq : 0 < 2 ^ (W - 32) := Nat.two_pow_pos _
    generalize 2 ^ (W - 32) = q at hq
    norm_num at hy ⊢
    omega

theorem wrap32_lt (op : Op) (x y : Nat) : op.wrap32 x y < 2 ^ 32 := by
  cases op <;> simp only [Op.wrap32] <;> exact Nat.mod_lt _ (by decide)

/-! ## The rotate macro -/

theorem rot_amount (W n : Nat) (hW : 32 ≤ W) (hn : n < 32) :
    ((32 + 2 ^ W - n) % 2 ^ W) &&& 31 = (32 - n) % 32 := by
  have hp := two_pow_W_ge W hW
  rw [and_mask5]
  generalize 2 ^ W = P at hp ⊢
  have h1 : 32 + P - n = (32 - n) + P := by omega
  rw [h1, Nat.add_mod_right, Nat.mod_eq_of_lt (by omega : 32 - n < P)]

theorem shl_mask (W a n : Nat) (hW : 32 ≤ W) :
    ((a <<< n) % 2 ^ W) &&& 0xffffffff = (a * 2 ^ n) % 2 ^ 32 := by
  rw [and_mask32, mod_W_mod32 W hW, Nat.shiftLeft_eq]

theorem ROTL_zero (W a : Nat) (hW : 32 ≤ W) (ha : a < 2 ^ 32) : ROTL W a 0 = a := by
  unfold ROTL
  rw [rot_amount W 0 hW (by decide), shl_mask W a 0 hW]
  have ha2 : a % 4294967296 = a := Nat.mod_eq_of_lt ha
  simp [ha2]

theorem ROTL_pos (W a n : Nat) (hW : 32 ≤ W) (ha : a < 2 ^ 32) (h0 : 1 ≤ n) (hn : n < 32) :
    ROTL W a n = (a * 2 ^ n) % 2 ^ 32 + a / 2 ^ (32 - n) := by
  unfold ROTL
  rw [rot_amount W n hW hn, shl_mask W a n hW, Nat.mod_eq_of_lt (by omega : 32 - n < 32),
    Nat.shiftRight_eq_div_pow]
  have hs : (2 : Nat) ^ 32 = 2 ^ n * 2 ^ (32 - n) := by
    rw [← pow_add]; congr 1; omega
  have hlt : a / 2 ^ (32 - n) < 2 ^ n := by
    rw [Nat.div_lt_iff_lt_mul (Nat.two_pow_pos _)]
    rw [hs] at ha; exact ha
  have hm : (a * 2 ^ n) % 2 ^ 32 = 2 ^ n * (a % 2 ^ (32 - n)) := by
    rw [hs, Nat.mul_comm a, Nat.mul_mod_mul_left]
  rw [hm]
  exact (Nat.mul_add_lt_is_or hlt _).symm

theorem ROTL_eq_rotl32 (W a n : Nat) (hW : 32 ≤ W) (ha : a < 2 ^ 32) (hn : n < 32) :
    ROTL W a n = rotl32 a n := by
  rcases Nat.eq_zero_or_pos n with h | h
  · subst h
    rw [ROTL_zero W a hW ha]
    simp only [rotl32]
    norm_num at ha ⊢
    omega
  · exact ROTL_pos W a n hW ha h hn

/-- The rotate macro never leaves the 32-bit range, whatever the rotation amount. -/
theorem ROTL_lt (W a n : Nat) (ha : a < 2 ^ 32) : ROTL W a n < 2 ^ 32 := by
  unfold ROTL
  apply Nat.or_lt_two_pow
  · rw [and_mask32]; exact Nat.mod_lt _ (by decide)
  · rw [Nat.shiftRight_eq_div_pow]
    exact lt_of_le_of_lt (Nat.div_le_self _ _) ha


/-! ## Running the generic macro -/

theorem table_read (tbl : List Nat) (i : Nat) (hlen : tbl.length = 256) (hi : i < 256) :
    tbl[i]? = some (tbl.getD i 0) := by
  have h : i < tbl.length := by omega
  simp [List.getD, List.getElem?_eq_getElem h]

theorem table_read_lt (tbl : List Nat) (i : Nat) (hb : ∀ x ∈ tbl, x < 2 ^ 32) :
    tbl.getD i 0 < 2 ^ 32 := by
  rcases Nat.lt_or_ge i tbl.length with h | h
  · have : tbl.getD i 0 = tbl[i] := by simp [List.getD, List.getElem?_eq_getElem h]
    rw [this]; exact hb _ (List.getElem_mem h)
  · have : tbl.getD i 0 = 0 := by simp [List.getD, List.getElem?_eq_none h]
    rw [this]; decide

theorem mask8_lt (x : Nat) : x &&& 0xff < 256 := by
  rw [and_mask8]; exact Nat.mod_lt _ (by decide)

/-- The generic macro on declared tables and a key holding the two round entries: it
succeeds, and its result is written with the expressions of the source. -/
theorem E_CAST_run (W : Nat) (S : STables) (n : Nat) (op1 op2 op3 : Op) (s : CastState)
    (km kr : Nat) (hk0 : s.key[n * 2]? = some km) (hk1 : s.key[n * 2 + 1]? = some kr)
    (hS : S.Declared) (t a b c d : Nat)
    (ht : t = ROTL W ((op1.ap W km s.R) &&& 0xffffffff) kr)
    (ha : a = S.CAST_S_table0.getD ((t >>> 8) &&& 0xff) 0)
    (hb : b = S.CAST_S_table1.getD (t &&& 0xff) 0)
    (hc : c = S.CAST_S_table2.getD ((t >>> 24) &&& 0xff) 0)
    (hd : d = S.CAST_S_table3.getD ((t >>> 16) &&& 0xff) 0) :
    E_CAST W S n op1 op2 op3 s = some { s with
      L := s.L ^^^ ((op1.ap W ((op3.ap W ((op2.ap W a b) &&& 0xffffffff) c) &&& 0xffffffff) d)
        &&& 0xffffffff)
      t := t } := by
  obtain ⟨h0, h1, h2, h3, -⟩ := hS
  subst ht ha hb hc hd
  unfold E_CAST
  rw [hk0, hk1]
  simp only [Option.bind_eq_bind, Option.some_bind, Option.pure_def]
  rw [table_read _ _ h0 (mask8_lt _), table_read _ _ h1 (mask8_lt _),
    table_read _ _ h2 (mask8_lt _), table_read _ _ h3 (mask8_lt _)]
  rfl


/-! ## The pointer variants -/

theorem loadAt_four_mul (tbl : List Nat) (i : Nat) : loadAt 32 tbl (4 * i) = tbl[i]? := by
  have h1 : 4 * i % (32 / 8) = 0 := by omega
  have h2 : 4 * i / (32 / 8) = i := by omega
  simp only [loadAt, h1, h2, if_true]

theorem offset_C_2 (t : Nat) : (t >>> C_2) &&& C_M = 4 * ((t >>> 8) &&& 0xff) := by
  rw [and_C_M, and_mask8, Nat.shiftRight_eq_div_pow, Nat.shiftRight_eq_div_pow]
  simp only [C_2]; omega

theorem offset_C_0 (t : Nat) : (t >>> C_0) &&& C_M = 4 * ((t >>> 24) &&& 0xff) := by
  rw [and_C_M, and_mask8, Nat.shiftRight_eq_div_pow, Nat.shiftRight_eq_div_pow]
  simp only [C_0]; omega

theorem offset_C_1 (t : Nat) : (t >>> C_1) &&& C_M = 4 * ((t >>> 16) &&& 0xff) := by
  rw [and_C_M, and_mask8, Nat.shiftRight_eq_div_pow, Nat.shiftRight_eq_div_pow]
  simp only [C_1]; omega

theorem offset_C_3 (W t : Nat) (hW : 32 ≤ W) :
    ((t <<< C_3) % 2 ^ W) &&& C_M = 4 * (t &&& 0xff) := by
  rw [and_C_M, and_mask8, Nat.shiftLeft_eq, two_pow_W_split W hW]
  have hq : 0 < 2 ^ (W - 32) := Nat.two_pow_pos _
  generalize 2 ^ (W - 32) = q at hq
  simp only [C_3]
  have : t * 2 ^ 2 % (2 ^ 32 * q) / 4 % 256 = t % 256 := by
    have h1 : t * 2 ^ 2 % (2 ^ 32 * q) = 4 * (t % (2 ^ 30 * q)) := by
      rw [show (2:Nat) ^ 32 * q = 4 * (2 ^ 30 * q) by ring, show t * 2 ^ 2 = 4 * t by ring,
        Nat.mul_mod_mul_left]
    rw [h1, Nat.mul_div_cancel_left _ (by decide : 0 < 4)]
    rw [show (2:Nat) ^ 30 * q = 256 * (2 ^ 22 * q) by ring]
    exact Nat.mod_mul_right_mod _ _ _
  rw [this]

/-- With its left operand already a 32-bit word, the unparenthesised `t OP p & mask`
has the value of `(t OP p) & mask`. -/
theorem apMaskRight_eq (W : Nat) (op : Op) (t p : Nat) (ht : t < 2 ^ 32) :
    op.apMaskRight W t p = (op.ap W t p) &&& 0xffffffff := by
  cases op with
  | add => rfl
  | sub => rfl
  | xor =>
    simp only [Op.apMaskRight, Op.ap]
    rw [Nat.and_xor_distrib_right, and_mask32 t, Nat.mod_eq_of_lt ht]

theorem and_mask32_lt (x : Nat) : x &&& 0xffffffff < 2 ^ 32 := by
  rw [and_mask32]; exact Nat.mod_lt _ (by decide)

theorem and_mask32_idem (x : Nat) : (x &&& 0xffffffff) &&& 0xffffffff = x &&& 0xffffffff := by
  rw [Nat.and_assoc, Nat.and_self]

theorem E_CAST_PTR_eq (S : STables) (n : Nat) (op1 op2 op3 : Op) (s : CastState) :
    E_CAST_PTR 32 S n op1 op2 op3 s = E_CAST 32 S n op1 op2 op3 s := by
  unfold E_CAST_PTR E_CAST
  simp only [offset_C_2, offset_C_0, offset_C_1, offset_C_3 32 _ (le_refl 32), loadAt_four_mul]

theorem E_CAST_PTR2_L (S : STables) (n : Nat) (op1 op2 op3 : Op) (s : CastState) :
    (E_CAST_PTR2 32 S n op1 op2 op3 s).map (fun r => r.L)
      = (E_CAST 32 S n op1 op2 op3 s).map (fun r => r.L) := by
  unfold E_CAST_PTR2 E_CAST
  simp only [offset_C_2, offset_C_0, offset_C_1, offset_C_3 32 _ (le_refl 32), loadAt_four_mul]
  cases s.key[n * 2]? with
  | none => rfl
  | some k0 =>
    cases s.key[n * 2 + 1]? with
    | none => rfl
    | some k1 =>
      simp only [Option.bind_eq_bind, Option.some_bind, Option.pure_def]
      cases S.CAST_S_table0[(ROTL 32 (Op.ap 32 op1 k0 s.R &&& 0xffffffff) k1 >>> 8) &&& 0xff]? with
      | none => rfl
      | some a =>
        cases S.CAST_S_table1[ROTL 32 (Op.ap 32 op1 k0 s.R &&& 0xffffffff) k1 &&& 0xff]? with
        | none => rfl
        | some b =>
          cases S.CAST_S_table2[(ROTL 32 (Op.ap 32 op1 k0 s.R &&& 0xffffffff) k1 >>> 24) &&& 0xff]? with
          | none => rfl
          | some c =>
            cases S.CAST_S_table3[(ROTL 32 (Op.ap 32 op1 k0 s.R &&& 0xffffffff) k1 >>> 16) &&& 0xff]? with
            | none => rfl
            | some d =>
              simp only [Option.some_bind, Option.map_some']
              rw [apMaskRight_eq 32 op3 _ c (and_mask32_lt _),
                apMaskRight_eq 32 op1 _ d (and_mask32_lt _), and_mask32_idem]

/-! ## C1: the three variants agree -/

/-- C1. Cross-variant equivalence.  With 32-bit `CAST_LONG` words (four bytes per table
entry), tables of the declared 256 entries, a key holding the masking key `key[n*2]` and
a rotation amount `key[n*2+1]` in `0 .. 31`, and a 32-bit `L`, the generic `E_CAST`, the
`CAST_PTR` variant and the `CAST_PTR2` variant all succeed and leave `L` with one and the
same 32-bit value, for every choice of the three operators (so for each of the three
CAST operator triples) and every `R`. -/
theorem E_CAST_variants_agree (S : STables) (n : Nat) (op1 op2 op3 : Op) (s : CastState)
    (km kr : Nat) (hk0 : s.key[n * 2]? = some km) (hk1 : s.key[n * 2 + 1]? = some kr)
    (hkr : kr < 32) (hL : s.L < 2 ^ 32) (hS : S.Declared) :
    ∃ l, l < 2 ^ 32 ∧
      (E_CAST 32 S n op1 op2 op3 s).map (fun r => r.L) = some l ∧
      (E_CAST_PTR 32 S n op1 op2 op3 s).map (fun r => r.L) = some l ∧
      (E_CAST_PTR2 32 S n op1 op2 op3 s).map (fun r => r.L) = some l := by
  have hrun := E_CAST_run 32 S n op1 op2 op3 s km kr hk0 hk1 hS _ _ _ _ _ rfl rfl rfl rfl rfl
  have hkr32 : kr < 32 := hkr
  rw [E_CAST_PTR2_L, E_CAST_PTR_eq, hrun]
  exact ⟨_, Nat.xor_lt_two_pow hL (and_mask32_lt _), rfl, rfl, rfl⟩

theorem E_CAST_variants_agree_witness :
    demoState.key[0 * 2]? = some 0x12345678 ∧ demoState.key[0 * 2 + 1]? = some 5 ∧
    demoTables.Declared ∧
    ∃ l, l < 2 ^ 32 ∧
      (E_CAST 32 demoTables 0 .add .xor .sub demoState).map (fun r => r.L) = some l ∧
      (E_CAST_PTR 32 demoTables 0 .add .xor .sub demoState).map (fun r => r.L) = some l ∧
      (E_CAST_PTR2 32 demoTables 0 .add .xor .sub demoState).map (fun r => r.L) = some l :=
  ⟨by decide, by decide, by decide,
    E_CAST_variants_agree demoTables 0 .add .xor .sub demoState 0x12345678 5
      (by decide) (by decide) (by decide) (by decide) (by decide)⟩


/-! ## C2: the published round function -/

/-- Bit `j` of a rotated word is bit `j - n` (modulo 32) of the word. -/
theorem rotl32_testBit (x n j : Nat) (hx : x < 2 ^ 32) (hn : n < 32) :
    (rotl32 x n).testBit j = (decide (j < 32) && x.testBit ((j + 32 - n) % 32)) := by
  have hs : (2 : Nat) ^ 32 = 2 ^ n * 2 ^ (32 - n) := by
    rw [← pow_add]; congr 1; omega
  have hlt : x / 2 ^ (32 - n) < 2 ^ n := by
    rw [Nat.div_lt_iff_lt_mul (Nat.two_pow_pos _)]
    rw [hs] at hx; exact hx
  have hm : (x * 2 ^ n) % 2 ^ 32 = 2 ^ n * (x % 2 ^ (32 - n)) := by
    rw [hs, Nat.mul_comm x, Nat.mul_mod_mul_left]
  unfold rotl32
  rw [hm, Nat.testBit_mul_pow_two_add _ hlt, ← Nat.shiftRight_eq_div_pow]
  by_cases hj : j < n
  · have h1 : (j + 32 - n) % 32 = 32 - n + j := by omega
    have h2 : j < 32 := by omega
    simp [hj, h1, h2]
  · by_cases h32 : j < 32
    · have h1 : (j + 32 - n) % 32 = j - n := by omega
      have h2 : j - n < 32 - n := by omega
      simp [hj, h1, h2, h32]
    · have h2 : ¬ (j - n < 32 - n) := by omega
      simp [hj, h2, h32]

/-- A byte of the word rotated by sixteen more positions is the byte sixteen positions
away of the word rotated by the cipher amount. -/
theorem rotl32_byte (x k p q : Nat) (hx : x < 2 ^ 32) (hk : k < 32)
    (hp : p + 8 ≤ 32) (hq : q + 8 ≤ 32) (hpq : q = (p + 16) % 32) :
    rotl32 x ((k + 16) % 32) / 2 ^ p % 2 ^ 8 = rotl32 x k / 2 ^ q % 2 ^ 8 := by
  apply Nat.eq_of_testBit_eq
  intro j
  rw [Nat.testBit_mod_two_pow, Nat.testBit_mod_two_pow, ← Nat.shiftRight_eq_div_pow,
    ← Nat.shiftRight_eq_div_pow, Nat.testBit_shiftRight, Nat.testBit_shiftRight,
    rotl32_testBit x _ _ hx (Nat.mod_lt _ (by decide)), rotl32_testBit x _ _ hx hk]
  by_cases hj : j < 8
  · have h1 : p + j < 32 := by omega
    have h2 : q + j < 32 := by omega
    have h3 : (p + j + 32 - (k + 16) % 32) % 32 = (q + j + 32 - k) % 32 := by omega
    simp [hj, h1, h2, h3]
  · simp [hj]


theorem stored_rotation_indices (W x k : Nat) (hW : 32 ≤ W) (hx : x < 2 ^ 32) (hk : k < 32) :
    (ROTL W x ((k + 16) % 32) >>> 8) &&& 0xff = rotl32 x k / 2 ^ 24 % 256 ∧
    ROTL W x ((k + 16) % 32) &&& 0xff = rotl32 x k / 2 ^ 16 % 256 ∧
    (ROTL W x ((k + 16) % 32) >>> 24) &&& 0xff = rotl32 x k / 2 ^ 8 % 256 ∧
    (ROTL W x ((k + 16) % 32) >>> 16) &&& 0xff = rotl32 x k % 256 := by
  rw [ROTL_eq_rotl32 W x _ hW hx (Nat.mod_lt _ (by decide))]
  have h8 := rotl32_byte x k 8 24 hx hk (by decide) (by decide) (by decide)
  have h0 := rotl32_byte x k 0 16 hx hk (by decide) (by decide) (by decide)
  have h24 := rotl32_byte x k 24 8 hx hk (by decide) (by decide) (by decide)
  have h16 := rotl32_byte x k 16 0 hx hk (by decide) (by decide) (by decide)
  simp only [and_mask8, Nat.shiftRight_eq_div_pow]
  norm_num at h8 h0 h24 h16 ⊢
  exact ⟨h8, h0, h24, h16⟩

/-- C2. Conformance to the published CAST-128 round function.  When the key stores the
masking key `Km` in `key[n*2]` and the cipher rotation `Kr` (in `0 .. 31`) with the extra
16 in `key[n*2+1]`, that is `(Kr + 16) mod 32`, the generic `E_CAST` on the declared
tables of 32-bit words and a 32-bit right half `D` succeeds and XORs into `L` exactly
`f = ((S1[Ia] OP2 S2[Ib]) OP3 S3[Ic]) OP1 S4[Id]` modulo `2 ^ 32`, where `S1 .. S4` are
`CAST_S_table0 .. 3`, `I` is `(Km OP1 D) mod 2^32` rotated left by `Kr` and `Ia .. Id`
are the bytes of `I` from the most to the least significant.  This holds for every
choice of the operators, so for each of the three triples `(+,^,-)`, `(^,-,+)`,
`(-,+,^)`. -/
theorem E_CAST_conforms_cast128 (W : Nat) (S : STables) (n : Nat) (op1 op2 op3 : Op)
    (s : CastState) (Km Kr : Nat) (hW : 32 ≤ W) (hS : S.Declared) (hB : S.Words32)
    (hk0 : s.key[n * 2]? = some Km) (hk1 : s.key[n * 2 + 1]? = some ((Kr + 16) % 32))
    (hKr : Kr < 32) (hD : s.R < 2 ^ 32) :
    (E_CAST W S n op1 op2 op3 s).map (fun r => r.L) =
      some (s.L ^^^ cast128_f S.CAST_S_table0 S.CAST_S_table1 S.CAST_S_table2
        S.CAST_S_table3 op1 op2 op3 Km Kr s.R) := by
  have hrun := E_CAST_run W S n op1 op2 op3 s Km _ hk0 hk1 hS _ _ _ _ _ rfl rfl rfl rfl rfl
  obtain ⟨-, b1, b2, b3⟩ := hB
  obtain ⟨i0, i1, i2, i3⟩ :=
    stored_rotation_indices W (op1.wrap32 Km s.R) Kr hW (wrap32_lt _ _ _) hKr
  rw [hrun, ap_mask32 W hW op1 _ _ (table_read_lt _ _ b3),
    ap_mask32 W hW op3 _ _ (table_read_lt _ _ b2),
    ap_mask32 W hW op2 _ _ (table_read_lt _ _ b1),
    ap_mask32 W hW op1 Km s.R hD, i0, i1, i2, i3]
  rfl

theorem E_CAST_conforms_cast128_witness :
    32 ≤ 32 ∧ demoTables.Declared ∧ demoTables.Words32 ∧
    demoState.key[0 * 2]? = some 0x12345678 ∧
    demoState.key[0 * 2 + 1]? = some ((21 + 16) % 32) ∧ 21 < 32 ∧ demoState.R < 2 ^ 32 ∧
    (E_CAST 32 demoTables 0 .add .xor .sub demoState).map (fun r => r.L) =
      some (demoState.L ^^^ cast128_f demoTables.CAST_S_table0 demoTables.CAST_S_table1
        demoTables.CAST_S_table2 demoTables.CAST_S_table3 .add .xor .sub 0x12345678 21
        demoState.R) :=
  ⟨by decide, by decide, by decide, by decide, by decide, by decide, by decide,
    E_CAST_conforms_cast128 32 demoTables 0 .add .xor .sub demoState 0x12345678 21
      (by decide) (by decide) (by decide) (by decide) (by decide) (by decide) (by decide)⟩


/-! ## C3: the word that is rotated -/

/-- C3, as stated, fails.  With `OP1 = ^`, masking key 1, `R = 1` and rotation 0 the word
that `E_CAST` rotates is `1 ^ 1 = 0`, so the scratch word ends as `ROTL(0,0) = 0`, not as
the rotation of `(1 + 1) mod 2^32 = 2`. -/
theorem E_CAST_prerotation_sum_counterexample :
    (E_CAST 32 onesTables 0 .xor .sub .add unitState).map (fun r => r.t) = some 0 ∧
    ROTL 32 ((1 + 1) % 2 ^ 32) 0 = 2 ∧
    (E_CAST 32 onesTables 0 .xor .sub .add unitState).map (fun r => r.t)
      ≠ some (ROTL 32 ((1 + 1) % 2 ^ 32) 0) := by
  decide

/-- C3, amended.  Step 1 of the round transform: for every operator triple, every
masking key `key[n*2]` and every 32-bit right half `R`, the word that `E_CAST` rotates is
`(key[n*2] OP1 R) mod 2^32`, computed with unsigned wraparound: `E_CAST` succeeds and
leaves in `t` the rotation of that word by `key[n*2+1]`.  The word is
`(key[n*2] + R) mod 2^32` when `OP1` is `+`. -/
theorem E_CAST_prerotation_word (W : Nat) (S : STables) (n : Nat) (op1 op2 op3 : Op)
    (s : CastState) (km kr : Nat) (hW : 32 ≤ W) (hS : S.Declared)
    (hk0 : s.key[n * 2]? = some km) (hk1 : s.key[n * 2 + 1]? = some kr)
    (hR : s.R < 2 ^ 32) :
    (op1.ap W km s.R) &&& 0xffffffff = op1.wrap32 km s.R ∧
    (E_CAST W S n op1 op2 op3 s).map (fun r => r.t) = some (ROTL W (op1.wrap32 km s.R) kr) ∧
    (op1 = Op.add →
      (E_CAST W S n op1 op2 op3 s).map (fun r => r.t)
        = some (ROTL W ((km + s.R) % 2 ^ 32) kr)) := by
  have hrun := E_CAST_run W S n op1 op2 op3 s km kr hk0 hk1 hS _ _ _ _ _ rfl rfl rfl rfl rfl
  have hpre := ap_mask32 W hW op1 km s.R hR
  rw [hrun, hpre]
  refine ⟨rfl, rfl, ?_⟩
  intro h
  subst h
  rfl

theorem E_CAST_prerotation_word_witness :
    32 ≤ 64 ∧ demoTables.Declared ∧ demoState.key[0 * 2]? = some 0x12345678 ∧
    demoState.key[0 * 2 + 1]? = some 5 ∧ demoState.R < 2 ^ 32 ∧
    ((Op.sub.ap 64 0x12345678 demoState.R) &&& 0xffffffff
        = Op.sub.wrap32 0x12345678 demoState.R ∧
      (E_CAST 64 demoTables 0 .sub .add .xor demoState).map (fun r => r.t)
        = some (ROTL 64 (Op.sub.wrap32 0x12345678 demoState.R) 5) ∧
      (Op.sub = Op.add →
        (E_CAST 64 demoTables 0 .sub .add .xor demoState).map (fun r => r.t)
          = some (ROTL 64 ((0x12345678 + demoState.R) % 2 ^ 32) 5))) :=
  ⟨by decide, by decide, by decide, by decide, by decide,
    E_CAST_prerotation_word 64 demoTables 0 .sub .add .xor demoState 0x12345678 5
      (by decide) (by decide) (by decide) (by decide) (by decide)⟩

/-! ## C4: the order of the operators -/

/-- C4, as stated, fails.  With every table entry equal to 1 and the triple
`(OP1,OP2,OP3) = (+,^,-)`, `E_CAST` XORs `((1 ^ 1) - 1) + 1 = 0` into `L = 7`, leaving 7;
combining in the order `OP1, OP2, OP3` would XOR `((1 + 1) ^ 1) - 1 = 2`, leaving 5. -/
theorem E_CAST_operator_order_counterexample :
    (E_CAST 32 onesTables 0 .add .xor .sub demoState).map (fun r => r.L) = some 7 ∧
    demoState.L ^^^ Op.sub.wrap32 (Op.xor.wrap32 (Op.add.wrap32 1 1) 1) 1 = 5 ∧
    (E_CAST 32 onesTables 0 .add .xor .sub demoState).map (fun r => r.L)
      ≠ some (demoState.L ^^^ Op.sub.wrap32 (Op.xor.wrap32 (Op.add.wrap32 1 1) 1) 1) := by
  decide

/-- C4, amended.  Step 5 of the round transform: `E_CAST` combines the four looked-up
words `v0 .. v3` (read from `CAST_S_table0 .. 3`) left to right with the operators of its
triple in the order `OP2`, `OP3`, `OP1`: it succeeds and XORs into `L` the value
`((v0 OP2 v1) OP3 v2) OP1 v3`, each intermediate result truncated to 32 bits. -/
theorem E_CAST_combination (W : Nat) (S : STables) (n : Nat) (op1 op2 op3 : Op)
    (s : CastState) (km kr : Nat) (hW : 32 ≤ W) (hS : S.Declared) (hB : S.Words32)
    (hk0 : s.key[n * 2]? = some km) (hk1 : s.key[n * 2 + 1]? = some kr)
    (t v0 v1 v2 v3 : Nat)
    (ht : t = ROTL W ((op1.ap W km s.R) &&& 0xffffffff) kr)
    (h0 : v0 = S.CAST_S_table0.getD ((t >>> 8) &&& 0xff) 0)
    (h1 : v1 = S.CAST_S_table1.getD (t &&& 0xff) 0)
    (h2 : v2 = S.CAST_S_table2.getD ((t >>> 24) &&& 0xff) 0)
    (h3 : v3 = S.CAST_S_table3.getD ((t >>> 16) &&& 0xff) 0) :
    E_CAST W S n op1 op2 op3 s = some { s with
      L := s.L ^^^ op1.wrap32 (op3.wrap32 (op2.wrap32 v0 v1) v2) v3
      t := t } := by
  have hrun := E_CAST_run W S n op1 op2 op3 s km kr hk0 hk1 hS t v0 v1 v2 v3 ht h0 h1 h2 h3
  obtain ⟨-, b1, b2, b3⟩ := hB
  rw [hrun, ap_mask32 W hW op1 _ v3 (h3 ▸ table_read_lt _ _ b3),
    ap_mask32 W hW op3 _ v2 (h2 ▸ table_read_lt _ _ b2),
    ap_mask32 W hW op2 _ v1 (h1 ▸ table_read_lt _ _ b1)]

theorem E_CAST_combination_witness :
    32 ≤ 32 ∧ demoTables.Declared ∧ demoTables.Words32 ∧
    demoState.key[0 * 2]? = some 0x12345678 ∧ demoState.key[0 * 2 + 1]? = some 5 ∧
    474131710 = ROTL 32 ((Op.add.ap 32 0x12345678 demoState.R) &&& 0xffffffff) 5 ∧
    2896997548 = demoTables.CAST_S_table0.getD ((474131710 >>> 8) &&& 0xff) 0 ∧
    4294966518 = demoTables.CAST_S_table1.getD (474131710 &&& 0xff) 0 ∧
    2177761 = demoTables.CAST_S_table2.getD ((474131710 >>> 24) &&& 0xff) 0 ∧
    2147483714 = demoTables.CAST_S_table3.getD ((474131710 >>> 16) &&& 0xff) 0 ∧
    E_CAST 32 demoTables 0 .add .xor .sub demoState = some { demoState with
      L := demoState.L ^^^
        Op.add.wrap32 (Op.sub.wrap32 (Op.xor.wrap32 2896997548 4294966518) 2177761) 2147483714
      t := 474131710 } :=
  ⟨by decide, by decide, by decide, by decide, by decide, by decide, by decide, by decide,
    by decide, by decide,
    E_CAST_combination 32 demoTables 0 .add .xor .sub demoState 0x12345678 5
      (by decide) (by decide) (by decide) (by decide) (by decide)
      474131710 2896997548 4294966518 2177761 2147483714
      (by decide) (by decide) (by decide) (by decide) (by decide)⟩

/-! ## C5: the all-zero scenario -/

/-- C5, as stated, fails.  With key word 0, rotation 0, `R = 0`, the triple `(+,^,-)` and
the tables `demoTables` (whose entries at index 0 are `0`, `0xfffffff0`, `5` and
`0x80000000`), `E_CAST` XORs `((0 ^ 0xfffffff0) - 5) + 0x80000000 = 0x7fffffeb` into
`L = 0`, whereas `((table0[0] + table1[0]) xor table2[0]) - table3[0]` is `0x7ffffff5`. -/
theorem E_CAST_zero_scenario_counterexample :
    (E_CAST 32 demoTables 0 .add .xor .sub zeroState).map (fun r => r.L) = some 0x7fffffeb ∧
    Op.sub.wrap32 (Op.xor.wrap32 (Op.add.wrap32 (demoTables.CAST_S_table0.getD 0 0)
      (demoTables.CAST_S_table1.getD 0 0)) (demoTables.CAST_S_table2.getD 0 0))
      (demoTables.CAST_S_table3.getD 0 0) = 0x7ffffff5 ∧
    (E_CAST 32 demoTables 0 .add .xor .sub zeroState).map (fun r => r.L)
      ≠ some (zeroState.L ^^^ Op.sub.wrap32 (Op.xor.wrap32 (Op.add.wrap32
        (demoTables.CAST_S_table0.getD 0 0) (demoTables.CAST_S_table1.getD 0 0))
        (demoTables.CAST_S_table2.getD 0 0)) (demoTables.CAST_S_table3.getD 0 0)) := by
  decide

/-- C5, amended.  Literal sanity scenario: with `key[n*2] = 0`, rotation amount
`key[n*2+1] = 0`, `R = 0` and the operators `(OP1,OP2,OP3) = (+,^,-)`, for every contents
of the declared tables of 32-bit words `E_CAST` succeeds and the mask XORed into `L` is
`((CAST_S_table0[0] xor CAST_S_table1[0]) - CAST_S_table2[0]) + CAST_S_table3[0]`
modulo `2 ^ 32`. -/
theorem E_CAST_zero_scenario (W : Nat) (S : STables) (n : Nat) (s : CastState)
    (hW : 32 ≤ W) (hS : S.Declared) (hB : S.Words32)
    (hk0 : s.key[n * 2]? = some 0) (hk1 : s.key[n * 2 + 1]? = some 0) (hR : s.R = 0) :
    (E_CAST W S n .add .xor .sub s).map (fun r => r.L) =
      some (s.L ^^^ (((S.CAST_S_table0.getD 0 0 ^^^ S.CAST_S_table1.getD 0 0)
        + 2 ^ 32 - S.CAST_S_table2.getD 0 0) % 2 ^ 32 + S.CAST_S_table3.getD 0 0) % 2 ^ 32) := by
  have ht : 0 = ROTL W ((Op.add.ap W 0 s.R) &&& 0xffffffff) 0 := by
    rw [hR]
    have h00 : (Op.add.ap W 0 0) &&& 0xffffffff = 0 := by simp [Op.ap]
    rw [h00, ROTL_zero W 0 hW (by decide)]
  have hrun := E_CAST_run W S n .add .xor .sub s 0 0 hk0 hk1 hS 0
    (S.CAST_S_table0.getD 0 0) (S.CAST_S_table1.getD 0 0) (S.CAST_S_table2.getD 0 0)
    (S.CAST_S_table3.getD 0 0) ht rfl rfl rfl rfl
  obtain ⟨b0, b1, b2, b3⟩ := hB
  rw [ap_mask32 W hW .add _ _ (table_read_lt _ _ b3),
    ap_mask32 W hW .sub _ _ (table_read_lt _ _ b2),
    ap_mask32 W hW .xor _ _ (table_read_lt _ _ b1)] at hrun
  have hx : (S.CAST_S_table0.getD 0 0 ^^^ S.CAST_S_table1.getD 0 0) % 2 ^ 32
      = S.CAST_S_table0.getD 0 0 ^^^ S.CAST_S_table1.getD 0 0 :=
    Nat.mod_eq_of_lt (Nat.xor_lt_two_pow (table_read_lt _ _ b0) (table_read_lt _ _ b1))
  rw [hrun]
  simp only [Option.map_some', Op.wrap32, hx]

theorem E_CAST_zero_scenario_witness :
    32 ≤ 32 ∧ demoTables.Declared ∧ demoTables.Words32 ∧ zeroState.key[0 * 2]? = some 0 ∧
    zeroState.key[0 * 2 + 1]? = some 0 ∧ zeroState.R = 0 ∧
    (E_CAST 32 demoTables 0 .add .xor .sub zeroState).map (fun r => r.L) =
      some (zeroState.L ^^^ (((demoTables.CAST_S_table0.getD 0 0
        ^^^ demoTables.CAST_S_table1.getD 0 0)
        + 2 ^ 32 - demoTables.CAST_S_table2.getD 0 0) % 2 ^ 32
        + demoTables.CAST_S_table3.getD 0 0) % 2 ^ 32) :=
  ⟨by decide, by decide, by decide, by decide, by decide, by decide,
    E_CAST_zero_scenario 32 demoTables 0 zeroState
      (by decide) (by decide) (by decide) (by decide) (by decide) (by decide)⟩


/-! ## C6: the rotate macro is a circular rotation -/

/-- C6. Step 2 of the round transform: for every 32-bit word `a` and every rotation
amount `n` in `0 .. 31`, `ROTL(a,n)` is the circular left rotation of `a` by `n` within a
32-bit word: it is `a` for `n = 0` and `((a * 2^n) mod 2^32) + (a div 2^(32-n))` for
`n ≥ 1`, it is again below `2 ^ 32`, and its bit `j` (for `j < 32`) is bit
`(j - n) mod 32` of `a`. -/
theorem ROTL_circular (W a n : Nat) (hW : 32 ≤ W) (ha : a < 2 ^ 32) (hn : n ≤ 31) :
    (n = 0 → ROTL W a n = a) ∧
    (1 ≤ n → ROTL W a n = (a * 2 ^ n) % 2 ^ 32 + a / 2 ^ (32 - n)) ∧
    ROTL W a n < 2 ^ 32 ∧
    ∀ j, (ROTL W a n).testBit j = (decide (j < 32) && a.testBit ((j + 32 - n) % 32)) := by
  have hn32 : n < 32 := by omega
  refine ⟨?_, ?_, ROTL_lt W a n ha, ?_⟩
  · intro h0
    rw [h0]
    exact ROTL_zero W a hW ha
  · intro h1
    exact ROTL_pos W a n hW ha h1 hn32
  · intro j
    rw [ROTL_eq_rotl32 W a n hW ha hn32]
    exact rotl32_testBit a n j ha hn32

theorem ROTL_circular_witness :
    32 ≤ 64 ∧ 0x80000001 < 2 ^ 32 ∧ 4 ≤ 31 ∧
    ((4 = 0 → ROTL 64 0x80000001 4 = 0x80000001) ∧
    (1 ≤ 4 → ROTL 64 0x80000001 4 = (0x80000001 * 2 ^ 4) % 2 ^ 32 + 0x80000001 / 2 ^ (32 - 4)) ∧
    ROTL 64 0x80000001 4 < 2 ^ 32 ∧
    ∀ j, (ROTL 64 0x80000001 4).testBit j
      = (decide (j < 32) && (0x80000001).testBit ((j + 32 - 4) % 32))) :=
  ⟨by decide, by decide, by decide,
    ROTL_circular 64 0x80000001 4 (by decide) (by decide) (by decide)⟩

/-! ## C7: which byte indexes which table -/

/-- C7. Step 3 of the round transform, generic variant: with `t` the rotated word,
`E_CAST` reads `CAST_S_table0` at bits 8-15 of `t`, `CAST_S_table1` at bits 0-7,
`CAST_S_table2` at bits 24-31 and `CAST_S_table3` at bits 16-23, that is at the indices
`(t div 2^8) mod 256`, `t mod 256`, `(t div 2^24) mod 256` and `(t div 2^16) mod 256`,
and combines the entries it finds there. -/
theorem E_CAST_table_indices (W : Nat) (S : STables) (n : Nat) (op1 op2 op3 : Op)
    (s : CastState) (km kr : Nat) (hS : S.Declared)
    (hk0 : s.key[n * 2]? = some km) (hk1 : s.key[n * 2 + 1]? = some kr)
    (t : Nat) (ht : t = ROTL W ((op1.ap W km s.R) &&& 0xffffffff) kr) :
    (∀ u : Nat, (u >>> 8) &&& 0xff = u / 2 ^ 8 % 256 ∧ u &&& 0xff = u % 256 ∧
      (u >>> 24) &&& 0xff = u / 2 ^ 24 % 256 ∧ (u >>> 16) &&& 0xff = u / 2 ^ 16 % 256) ∧
    E_CAST W S n op1 op2 op3 s = some { s with
      L := s.L ^^^ ((op1.ap W ((op3.ap W ((op2.ap W
          (S.CAST_S_table0.getD (t / 2 ^ 8 % 256) 0)
          (S.CAST_S_table1.getD (t % 256) 0)) &&& 0xffffffff)
          (S.CAST_S_table2.getD (t / 2 ^ 24 % 256) 0)) &&& 0xffffffff)
          (S.CAST_S_table3.getD (t / 2 ^ 16 % 256) 0)) &&& 0xffffffff)
      t := t } := by
  have hidx : ∀ u : Nat, (u >>> 8) &&& 0xff = u / 2 ^ 8 % 256 ∧ u &&& 0xff = u % 256 ∧
      (u >>> 24) &&& 0xff = u / 2 ^ 24 % 256 ∧ (u >>> 16) &&& 0xff = u / 2 ^ 16 % 256 := by
    intro u
    exact ⟨by rw [and_mask8, Nat.shiftRight_eq_div_pow], and_mask8 u,
      by rw [and_mask8, Nat.shiftRight_eq_div_pow],
      by rw [and_mask8, Nat.shiftRight_eq_div_pow]⟩
  refine ⟨hidx, ?_⟩
  obtain ⟨i0, i1, i2, i3⟩ := hidx t
  rw [← i0, ← i1, ← i2, ← i3]
  exact E_CAST_run W S n op1 op2 op3 s km kr hk0 hk1 hS t _ _ _ _ ht rfl rfl rfl rfl

theorem E_CAST_table_indices_witness :
    demoTables.Declared ∧ demoState.key[0 * 2]? = some 0x12345678 ∧
    demoState.key[0 * 2 + 1]? = some 5 ∧
    0x1c42acfe = ROTL 32 ((Op.add.ap 32 0x12345678 demoState.R) &&& 0xffffffff) 5 ∧
    ((∀ u : Nat, (u >>> 8) &&& 0xff = u / 2 ^ 8 % 256 ∧ u &&& 0xff = u % 256 ∧
      (u >>> 24) &&& 0xff = u / 2 ^ 24 % 256 ∧ (u >>> 16) &&& 0xff = u / 2 ^ 16 % 256) ∧
    E_CAST 32 demoTables 0 .add .xor .sub demoState = some { demoState with
      L := demoState.L ^^^ ((Op.add.ap 32 ((Op.sub.ap 32 ((Op.xor.ap 32
          (demoTables.CAST_S_table0.getD (0x1c42acfe / 2 ^ 8 % 256) 0)
          (demoTables.CAST_S_table1.getD (0x1c42acfe % 256) 0)) &&& 0xffffffff)
          (demoTables.CAST_S_table2.getD (0x1c42acfe / 2 ^ 24 % 256) 0)) &&& 0xffffffff)
          (demoTables.CAST_S_table3.getD (0x1c42acfe / 2 ^ 16 % 256) 0)) &&& 0xffffffff)
      t := 0x1c42acfe }) :=
  ⟨by decide, by decide, by decide, by decide,
    E_CAST_table_indices 32 demoTables 0 .add .xor .sub demoState 0x12345678 5
      (by decide) (by decide) (by decide) 0x1c42acfe (by decide)⟩

/-! ## C8: no read outside a table -/

/-- C8. Out-of-range table access is impossible and the transform is total: for every
masking key, every rotation amount in `0 .. 31`, every `R` and every operator, each of
the four table indices computed by the generic `E_CAST` is in `0 .. 255`, hence below the
declared length 256 of its table, so each of the four reads finds an entry and `E_CAST`
produces a state. -/
theorem E_CAST_total (W : Nat) (S : STables) (n : Nat) (op1 op2 op3 : Op)
    (s : CastState) (km kr : Nat) (hS : S.Declared)
    (hk0 : s.key[n * 2]? = some km) (hk1 : s.key[n * 2 + 1]? = some kr) (hkr : kr < 32)
    (t : Nat) (ht : t = ROTL W ((op1.ap W km s.R) &&& 0xffffffff) kr) :
    ((t >>> 8) &&& 0xff < 256 ∧ t &&& 0xff < 256 ∧
      (t >>> 24) &&& 0xff < 256 ∧ (t >>> 16) &&& 0xff < 256) ∧
    ((t >>> 8) &&& 0xff < S.CAST_S_table0.length ∧ t &&& 0xff < S.CAST_S_table1.length ∧
      (t >>> 24) &&& 0xff < S.CAST_S_table2.length ∧
      (t >>> 16) &&& 0xff < S.CAST_S_table3.length) ∧
    (∃ a b c d, S.CAST_S_table0[(t >>> 8) &&& 0xff]? = some a ∧
      S.CAST_S_table1[t &&& 0xff]? = some b ∧
      S.CAST_S_table2[(t >>> 24) &&& 0xff]? = some c ∧
      S.CAST_S_table3[(t >>> 16) &&& 0xff]? = some d) ∧
    ∃ r, E_CAST W S n op1 op2 op3 s = some r := by
  have hkr32 : kr ≤ 31 := by omega
  have hrun := E_CAST_run W S n op1 op2 op3 s km kr hk0 hk1 hS t _ _ _ _ ht rfl rfl rfl rfl
  obtain ⟨l0, l1, l2, l3, -⟩ := hS
  refine ⟨⟨mask8_lt _, mask8_lt _, mask8_lt _, mask8_lt _⟩, ?_, ?_, ⟨_, hrun⟩⟩
  · rw [l0, l1, l2, l3]
    exact ⟨mask8_lt _, mask8_lt _, mask8_lt _, mask8_lt _⟩
  · exact ⟨_, _, _, _, table_read _ _ l0 (mask8_lt _), table_read _ _ l1 (mask8_lt _),
      table_read _ _ l2 (mask8_lt _), table_read _ _ l3 (mask8_lt _)⟩

theorem E_CAST_total_witness :
    demoTables.Declared ∧ demoState.key[0 * 2]? = some 0x12345678 ∧
    demoState.key[0 * 2 + 1]? = some 5 ∧ 5 < 32 ∧
    0x933d12f9 = ROTL 32 ((Op.xor.ap 32 0x12345678 demoState.R) &&& 0xffffffff) 5 ∧
    (((0x933d12f9 >>> 8) &&& 0xff < 256 ∧ 0x933d12f9 &&& 0xff < 256 ∧
      (0x933d12f9 >>> 24) &&& 0xff < 256 ∧ (0x933d12f9 >>> 16) &&& 0xff < 256) ∧
    ((0x933d12f9 >>> 8) &&& 0xff < demoTables.CAST_S_table0.length ∧
      0x933d12f9 &&& 0xff < demoTables.CAST_S_table1.length ∧
      (0x933d12f9 >>> 24) &&& 0xff < demoTables.CAST_S_table2.length ∧
      (0x933d12f9 >>> 16) &&& 0xff < demoTables.CAST_S_table3.length) ∧
    (∃ a b c d, demoTables.CAST_S_table0[(0x933d12f9 >>> 8) &&& 0xff]? = some a ∧
      demoTables.CAST_S_table1[0x933d12f9 &&& 0xff]? = some b ∧
      demoTables.CAST_S_table2[(0x933d12f9 >>> 24) &&& 0xff]? = some c ∧
      demoTables.CAST_S_table3[(0x933d12f9 >>> 16) &&& 0xff]? = some d) ∧
    ∃ r, E_CAST 32 demoTables 0 .xor .sub .add demoState = some r) :=
  ⟨by decide, by decide, by decide, by decide, by decide,
    E_CAST_total 32 demoTables 0 .xor .sub .add demoState 0x12345678 5
      (by decide) (by decide) (by decide) (by decide) 0x933d12f9 (by decide)⟩


/-! ## C9: all arithmetic is modulo `2 ^ 32` -/

theorem sub_wraps (W x y : Nat) (hW : 32 ≤ W) (hx : x < 2 ^ 32) (hy : y < 2 ^ 32) :
    (Op.sub.ap W x y) &&& 0xffffffff = if x < y then x + 2 ^ 32 - y else x - y := by
  rw [ap_mask32 W hW .sub x y hy]
  simp only [Op.wrap32]
  norm_num at hx hy ⊢
  split <;> omega

theorem add_wraps (W x y : Nat) (hW : 32 ≤ W) (hx : x < 2 ^ 32) (hy : y < 2 ^ 32) :
    (Op.add.ap W x y) &&& 0xffffffff = if 2 ^ 32 ≤ x + y then x + y - 2 ^ 32 else x + y := by
  rw [ap_mask32 W hW .add x y hy]
  simp only [Op.wrap32]
  norm_num at hx hy ⊢
  split <;> omega

/-- C9. All arithmetic is modulo `2 ^ 32`.  For every input and every operator in each
position, the generic `E_CAST` succeeds on the declared tables and every value it keeps
is in `0 .. 2^32 - 1`: the pre-rotation word `pre`, the rotated word `t`, the partial
combinations `p1` and `p2`, and the final mask.  A masked subtraction of 32-bit words
wraps (`x - y` yields `x - y + 2^32` when `x < y`) and a masked addition wraps (`x + y`
yields `x + y - 2^32` when `x + y ≥ 2^32`).  Consequently `L < 2^32` before `E_CAST`
gives `L < 2^32` after it. -/
theorem E_CAST_arithmetic_mod_two_pow_32 (W : Nat) (S : STables) (n : Nat)
    (op1 op2 op3 : Op) (s : CastState) (km kr : Nat) (hW : 32 ≤ W) (hS : S.Declared)
    (hk0 : s.key[n * 2]? = some km) (hk1 : s.key[n * 2 + 1]? = some kr)
    (pre t a b c d p1 p2 mask : Nat)
    (hpre : pre = (op1.ap W km s.R) &&& 0xffffffff)
    (ht : t = ROTL W pre kr)
    (ha : a = S.CAST_S_table0.getD ((t >>> 8) &&& 0xff) 0)
    (hb : b = S.CAST_S_table1.getD (t &&& 0xff) 0)
    (hc : c = S.CAST_S_table2.getD ((t >>> 24) &&& 0xff) 0)
    (hd : d = S.CAST_S_table3.getD ((t >>> 16) &&& 0xff) 0)
    (hp1 : p1 = (op2.ap W a b) &&& 0xffffffff)
    (hp2 : p2 = (op3.ap W p1 c) &&& 0xffffffff)
    (hmask : mask = (op1.ap W p2 d) &&& 0xffffffff) :
    E_CAST W S n op1 op2 op3 s = some { s with L := s.L ^^^ mask, t := t } ∧
    pre < 2 ^ 32 ∧ t < 2 ^ 32 ∧ p1 < 2 ^ 32 ∧ p2 < 2 ^ 32 ∧ mask < 2 ^ 32 ∧
    (∀ x y, x < 2 ^ 32 → y < 2 ^ 32 →
      (Op.sub.ap W x y) &&& 0xffffffff = if x < y then x + 2 ^ 32 - y else x - y) ∧
    (∀ x y, x < 2 ^ 32 → y < 2 ^ 32 →
      (Op.add.ap W x y) &&& 0xffffffff = if 2 ^ 32 ≤ x + y then x + y - 2 ^ 32 else x + y) ∧
    (∀ x y, x < 2 ^ 32 → y < 2 ^ 32 → (Op.xor.ap W x y) &&& 0xffffffff = x ^^^ y) ∧
    (s.L < 2 ^ 32 → s.L ^^^ mask < 2 ^ 32) := by
  have hpre32 : pre < 2 ^ 32 := hpre ▸ and_mask32_lt _
  have hmask32 : mask < 2 ^ 32 := hmask ▸ and_mask32_lt _
  refine ⟨?_, hpre32, ht ▸ ROTL_lt W pre kr hpre32, hp1 ▸ and_mask32_lt _,
    hp2 ▸ and_mask32_lt _, hmask32, ?_, ?_, ?_, ?_⟩
  · subst hmask hp2 hp1
    exact E_CAST_run W S n op1 op2 op3 s km kr hk0 hk1 hS t a b c d (hpre ▸ ht) ha hb hc hd
  · intro x y hx hy
    exact sub_wraps W x y hW hx hy
  · intro x y hx hy
    exact add_wraps W x y hW hx hy
  · intro x y hx hy
    rw [and_mask32]
    exact Nat.mod_eq_of_lt (Nat.xor_lt_two_pow hx hy)
  · intro hL
    exact Nat.xor_lt_two_pow hL hmask32

theorem E_CAST_arithmetic_mod_two_pow_32_witness :
    32 ≤ 64 ∧ demoTables.Declared ∧ demoState.key[0 * 2]? = some 0x12345678 ∧
    demoState.key[0 * 2 + 1]? = some 5 ∧
    864458633 = (Op.sub.ap 64 0x12345678 demoState.R) &&& 0xffffffff ∧
    1892872486 = ROTL 64 864458633 5 ∧
    4059165169 = demoTables.CAST_S_table0.getD ((1892872486 >>> 8) &&& 0xff) 0 ∧
    4294967166 = demoTables.CAST_S_table1.getD (1892872486 &&& 0xff) 0 ∧
    8711029 = demoTables.CAST_S_table2.getD ((1892872486 >>> 24) &&& 0xff) 0 ∧
    2147483858 = demoTables.CAST_S_table3.getD ((1892872486 >>> 16) &&& 0xff) 0 ∧
    4059165039 = (Op.add.ap 64 4059165169 4294967166) &&& 0xffffffff ∧
    4050983450 = (Op.xor.ap 64 4059165039 8711029) &&& 0xffffffff ∧
    1903499592 = (Op.sub.ap 64 4050983450 2147483858) &&& 0xffffffff ∧
    (E_CAST 64 demoTables 0 .sub .add .xor demoState
        = some { demoState with L := demoState.L ^^^ 1903499592, t := 1892872486 } ∧
      864458633 < 2 ^ 32 ∧ 1892872486 < 2 ^ 32 ∧ 4059165039 < 2 ^ 32 ∧
      4050983450 < 2 ^ 32 ∧ 1903499592 < 2 ^ 32 ∧
      (∀ x y, x < 2 ^ 32 → y < 2 ^ 32 →
        (Op.sub.ap 64 x y) &&& 0xffffffff = if x < y then x + 2 ^ 32 - y else x - y) ∧
      (∀ x y, x < 2 ^ 32 → y < 2 ^ 32 →
        (Op.add.ap 64 x y) &&& 0xffffffff
          = if 2 ^ 32 ≤ x + y then x + y - 2 ^ 32 else x + y) ∧
      (∀ x y, x < 2 ^ 32 → y < 2 ^ 32 → (Op.xor.ap 64 x y) &&& 0xffffffff = x ^^^ y) ∧
      (demoState.L < 2 ^ 32 → demoState.L ^^^ 1903499592 < 2 ^ 32)) :=
  ⟨by decide, by decide, by decide, by decide, by decide, by decide, by decide, by decide,
    by decide, by decide, by decide, by decide, by decide,
    E_CAST_arithmetic_mod_two_pow_32 64 demoTables 0 .sub .add .xor demoState 0x12345678 5
      (by decide) (by decide) (by decide) (by decide)
      864458633 1892872486 4059165169 4294967166 8711029 2147483858
      4059165039 4050983450 1903499592
      (by decide) (by decide) (by decide) (by decide) (by decide) (by decide) (by decide)
      (by decide) (by decide)⟩

/-! ## C10: rotation edge cases -/

/-- C10. Rotation edge cases of `ROTL`: for every 32-bit word `a`, `ROTL(a,0) = a`, and
`ROTL(a,31)` is `a` rotated right by one position, `(a div 2) + (a mod 2) * 2^31`. -/
theorem ROTL_edge_cases (W a : Nat) (hW : 32 ≤ W) (ha : a < 2 ^ 32) :
    ROTL W a 0 = a ∧ ROTL W a 31 = a / 2 + (a % 2) * 2 ^ 31 := by
  refine ⟨ROTL_zero W a hW ha, ?_⟩
  rw [ROTL_pos W a 31 hW ha (by decide) (by decide)]
  norm_num at ha ⊢
  omega

theorem ROTL_edge_cases_witness :
    32 ≤ 32 ∧ 0xdeadbeef < 2 ^ 32 ∧
    (ROTL 32 0xdeadbeef 0 = 0xdeadbeef ∧
      ROTL 32 0xdeadbeef 31 = 0xdeadbeef / 2 + (0xdeadbeef % 2) * 2 ^ 31) :=
  ⟨by decide, by decide, ROTL_edge_cases 32 0xdeadbeef (by decide) (by decide)⟩


/-! ## C11: what a call changes -/

/-- Whenever the generic macro returns, the key array and the half passed as `R` are
the ones it was called with. -/
theorem E_CAST_keeps (W : Nat) (S : STables) (n : Nat) (op1 op2 op3 : Op)
    (s r : CastState) (h : E_CAST W S n op1 op2 op3 s = some r) :
    r.key = s.key ∧ r.R = s.R := by
  unfold E_CAST at h
  cases hk0 : s.key[n * 2]? with
  | none => simp [hk0] at h
  | some k0 =>
    cases hk1 : s.key[n * 2 + 1]? with
    | none => simp [hk0, hk1] at h
    | some k1 =>
      simp only [hk0, hk1, Option.bind_eq_bind, Option.some_bind, Option.pure_def,
        Option.bind_eq_some] at h
      obtain ⟨a, -, b, -, c, -, d, -, hr⟩ := h
      cases hr
      exact ⟨rfl, rfl⟩

/-- C11. Output contract and frame: on the declared tables and a key holding the two
round entries, the generic `E_CAST` succeeds and its only effect on the block and the
key is `L := L xor mask`, where `mask` is computed from `key[n*2]`, `key[n*2+1]`, `R` and
tables 0-3 alone (beside the block and the key it leaves the rotated word in the scratch
`t`).  The right half `R` and every entry of the key array are unchanged by the call;
they are unchanged whenever the macro returns at all. -/
theorem E_CAST_frame (W : Nat) (S : STables) (n : Nat) (op1 op2 op3 : Op)
    (s : CastState) (km kr : Nat) (hS : S.Declared)
    (hk0 : s.key[n * 2]? = some km) (hk1 : s.key[n * 2 + 1]? = some kr)
    (t a b c d mask : Nat)
    (ht : t = ROTL W ((op1.ap W km s.R) &&& 0xffffffff) kr)
    (ha : a = S.CAST_S_table0.getD ((t >>> 8) &&& 0xff) 0)
    (hb : b = S.CAST_S_table1.getD (t &&& 0xff) 0)
    (hc : c = S.CAST_S_table2.getD ((t >>> 24) &&& 0xff) 0)
    (hd : d = S.CAST_S_table3.getD ((t >>> 16) &&& 0xff) 0)
    (hmask : mask = (op1.ap W ((op3.ap W ((op2.ap W a b) &&& 0xffffffff) c) &&& 0xffffffff) d)
      &&& 0xffffffff) :
    (∃ r, E_CAST W S n op1 op2 op3 s = some r ∧ r.L = s.L ^^^ mask ∧ r.R = s.R ∧
      r.key = s.key ∧ (∀ i : Nat, r.key[i]? = s.key[i]?) ∧ r.t = t) ∧
    (∀ r, E_CAST W S n op1 op2 op3 s = some r → r.key = s.key ∧ r.R = s.R) := by
  have hrun := E_CAST_run W S n op1 op2 op3 s km kr hk0 hk1 hS t a b c d ht ha hb hc hd
  refine ⟨⟨_, hrun, ?_, rfl, rfl, fun _ => rfl, rfl⟩, ?_⟩
  · rw [hmask]
  · intro r hr
    exact E_CAST_keeps W S n op1 op2 op3 s r hr

theorem E_CAST_frame_witness :
    demoTables.Declared ∧ demoState.key[0 * 2]? = some 0x12345678 ∧
    demoState.key[0 * 2 + 1]? = some 5 ∧
    0x1c42acfe = ROTL 32 ((Op.add.ap 32 0x12345678 demoState.R) &&& 0xffffffff) 5 ∧
    2896997548 = demoTables.CAST_S_table0.getD ((0x1c42acfe >>> 8) &&& 0xff) 0 ∧
    4294966518 = demoTables.CAST_S_table1.getD (0x1c42acfe &&& 0xff) 0 ∧
    2177761 = demoTables.CAST_S_table2.getD ((0x1c42acfe >>> 24) &&& 0xff) 0 ∧
    2147483714 = demoTables.CAST_S_table3.getD ((0x1c42acfe >>> 16) &&& 0xff) 0 ∧
    3543274939 = (Op.add.ap 32 ((Op.sub.ap 32 ((Op.xor.ap 32 2896997548 4294966518)
      &&& 0xffffffff) 2177761) &&& 0xffffffff) 2147483714) &&& 0xffffffff ∧
    ((∃ r, E_CAST 32 demoTables 0 .add .xor .sub demoState = some r ∧
        r.L = demoState.L ^^^ 3543274939 ∧ r.R = demoState.R ∧ r.key = demoState.key ∧
        (∀ i : Nat, r.key[i]? = demoState.key[i]?) ∧ r.t = 0x1c42acfe) ∧
      (∀ r, E_CAST 32 demoTables 0 .add .xor .sub demoState = some r →
        r.key = demoState.key ∧ r.R = demoState.R)) :=
  ⟨by decide, by decide, by decide, by decide, by decide, by decide, by decide, by decide,
    by decide,
    E_CAST_frame 32 demoTables 0 .add .xor .sub demoState 0x12345678 5
      (by decide) (by decide) (by decide)
      0x1c42acfe 2896997548 4294966518 2177761 2147483714 3543274939
      (by decide) (by decide) (by decide) (by decide) (by decide) (by decide)⟩


/-! ## C12: no hidden inputs -/

/-- C12. Determinism with no hidden inputs: two invocations of the generic `E_CAST` for
round `n` that agree on `key[n*2]`, `key[n*2+1]`, `R`, `L`, the operators and the contents
of `CAST_S_table0 .. 3` produce the identical new `L`, whatever the other key entries,
the scratch word and the contents of `CAST_S_table4 .. 7` are in the two runs, and both
invocations do produce it. -/
theorem E_CAST_deterministic (W : Nat) (S S2 : STables) (n : Nat) (op1 op2 op3 : Op)
    (s s2 : CastState) (km kr : Nat)
    (hk0 : s.key[n * 2]? = some km) (hk1 : s.key[n * 2 + 1]? = some kr)
    (hk0' : s2.key[n * 2]? = some km) (hk1' : s2.key[n * 2 + 1]? = some kr)
    (hR : s.R = s2.R) (hL : s.L = s2.L)
    (h0 : S.CAST_S_table0 = S2.CAST_S_table0) (h1 : S.CAST_S_table1 = S2.CAST_S_table1)
    (h2 : S.CAST_S_table2 = S2.CAST_S_table2) (h3 : S.CAST_S_table3 = S2.CAST_S_table3)
    (hS : S.Declared) :
    ∃ l, (E_CAST W S n op1 op2 op3 s).map (fun r => r.L) = some l ∧
      (E_CAST W S2 n op1 op2 op3 s2).map (fun r => r.L) = some l := by
  have heq : (E_CAST W S n op1 op2 op3 s).map (fun r => r.L)
      = (E_CAST W S2 n op1 op2 op3 s2).map (fun r => r.L) := by
    unfold E_CAST
    rw [hk0, hk1, hk0', hk1', h0, h1, h2, h3, hR, hL]
    simp only [Option.bind_eq_bind, Option.some_bind, Option.pure_def]
    cases S2.CAST_S_table0[(ROTL W (Op.ap W op1 km s2.R &&& 0xffffffff) kr >>> 8) &&& 0xff]? with
    | none => rfl
    | some a =>
      cases S2.CAST_S_table1[ROTL W (Op.ap W op1 km s2.R &&& 0xffffffff) kr &&& 0xff]? with
      | none => rfl
      | some b =>
        cases S2.CAST_S_table2[(ROTL W (Op.ap W op1 km s2.R &&& 0xffffffff) kr >>> 24) &&& 0xff]? with
        | none => rfl
        | some c =>
          cases S2.CAST_S_table3[(ROTL W (Op.ap W op1 km s2.R &&& 0xffffffff) kr >>> 16) &&& 0xff]? with
          | none => rfl
          | some d => rfl
  have hrun := E_CAST_run W S n op1 op2 op3 s km kr hk0 hk1 hS _ _ _ _ _ rfl rfl rfl rfl rfl
  rw [← heq, hrun]
  exact ⟨_, rfl, rfl⟩

theorem E_CAST_deterministic_witness :
    roundOneState.key[1 * 2]? = some 0x12345678 ∧ roundOneState.key[1 * 2 + 1]? = some 5 ∧
    roundOneOther.key[1 * 2]? = some 0x12345678 ∧ roundOneOther.key[1 * 2 + 1]? = some 5 ∧
    roundOneState.R = roundOneOther.R ∧ roundOneState.L = roundOneOther.L ∧
    demoTables.CAST_S_table0 = otherTables.CAST_S_table0 ∧
    demoTables.CAST_S_table1 = otherTables.CAST_S_table1 ∧
    demoTables.CAST_S_table2 = otherTables.CAST_S_table2 ∧
    demoTables.CAST_S_table3 = otherTables.CAST_S_table3 ∧ demoTables.Declared ∧
    roundOneState.key ≠ roundOneOther.key ∧ roundOneState.t ≠ roundOneOther.t ∧
    demoTables.CAST_S_table4 ≠ otherTables.CAST_S_table4 ∧
    ∃ l, (E_CAST 32 demoTables 1 .xor .sub .add roundOneState).map (fun r => r.L) = some l ∧
      (E_CAST 32 otherTables 1 .xor .sub .add roundOneOther).map (fun r => r.L) = some l :=
  ⟨by decide, by decide, by decide, by decide, by decide, by decide, rfl, rfl, rfl, rfl,
    by decide, by decide, by decide, by decide,
    E_CAST_deterministic 32 demoTables otherTables 1 .xor .sub .add roundOneState
      roundOneOther 0x12345678 5 (by decide) (by decide) (by decide) (by decide)
      (by decide) (by decide) rfl rfl rfl rfl (by decide)⟩


/-! ## C13: applying the macro twice -/

/-- C13. `E_CAST` is an involution on the left half: on the declared tables, for every
`L`, `R`, key, rotation amount in `0 .. 31` and operators, the generic `E_CAST` applied
twice with the same round index, key, `R` and operators succeeds both times and
restores the original `L` (`L xor mask xor mask = L`), leaving `R` and the key as they
were.  The mask itself need not be an invertible function of `R`: on tables whose entries
are all equal, the right halves 0 and 1 give the same new `L`. -/
theorem E_CAST_involution (W : Nat) (S : STables) (n : Nat) (op1 op2 op3 : Op)
    (s : CastState) (km kr : Nat) (hS : S.Declared)
    (hk0 : s.key[n * 2]? = some km) (hk1 : s.key[n * 2 + 1]? = some kr) (hkr : kr < 32) :
    ∃ r r2, E_CAST W S n op1 op2 op3 s = some r ∧ E_CAST W S n op1 op2 op3 r = some r2 ∧
      r2.L = s.L ∧ r2.R = s.R ∧ r2.key = s.key ∧
      ((E_CAST W S n op1 op2 op3 s).bind (E_CAST W S n op1 op2 op3)).map (fun x => x.L)
        = some s.L ∧
      (E_CAST 32 onesTables 0 .add .xor .sub ⟨[0, 0], 0, 0, 0⟩).map (fun x => x.L)
        = (E_CAST 32 onesTables 0 .add .xor .sub ⟨[0, 0], 0, 1, 0⟩).map (fun x => x.L) := by
  have hkr32 : kr ≤ 31 := by omega
  obtain ⟨key, L, R, t0⟩ := s
  obtain ⟨M, T, hM⟩ : ∃ M T, ∀ L0 t1 : Nat,
      E_CAST W S n op1 op2 op3 ⟨key, L0, R, t1⟩ = some ⟨key, L0 ^^^ M, R, T⟩ :=
    ⟨_, ROTL W ((op1.ap W km R) &&& 0xffffffff) kr,
      fun L0 t1 => E_CAST_run W S n op1 op2 op3 ⟨key, L0, R, t1⟩ km kr hk0 hk1 hS
        (ROTL W ((op1.ap W km R) &&& 0xffffffff) kr) _ _ _ _ rfl rfl rfl rfl rfl⟩
  have hx : (L ^^^ M) ^^^ M = L := by
    rw [Nat.xor_assoc, Nat.xor_self, Nat.xor_zero]
  refine ⟨_, _, hM L t0, hM (L ^^^ M) T, hx, rfl, rfl, ?_, by decide⟩
  rw [hM L t0, Option.some_bind, hM (L ^^^ M) T]
  simp only [Option.map_some', hx]

theorem E_CAST_involution_witness :
    demoTables.Declared ∧ roundOneState.key[1 * 2]? = some 0x12345678 ∧
    roundOneState.key[1 * 2 + 1]? = some 5 ∧ 5 < 32 ∧
    ∃ r r2, E_CAST 32 demoTables 1 .sub .add .xor roundOneState = some r ∧
      E_CAST 32 demoTables 1 .sub .add .xor r = some r2 ∧
      r2.L = roundOneState.L ∧ r2.R = roundOneState.R ∧ r2.key = roundOneState.key ∧
      ((E_CAST 32 demoTables 1 .sub .add .xor roundOneState).bind
        (E_CAST 32 demoTables 1 .sub .add .xor)).map (fun x => x.L)
        = some roundOneState.L ∧
      (E_CAST 32 onesTables 0 .add .xor .sub ⟨[0, 0], 0, 0, 0⟩).map (fun x => x.L)
        = (E_CAST 32 onesTables 0 .add .xor .sub ⟨[0, 0], 0, 1, 0⟩).map (fun x => x.L) :=
  ⟨by decide, by decide, by decide, by decide,
    E_CAST_involution 32 demoTables 1 .sub .add .xor roundOneState 0x12345678 5
      (by decide) (by decide) (by decide) (by decide)⟩


/-! ## C14: the byte offsets of the pointer variants -/

/-- C14. Pointer-variant offsets are exactly four times the generic indices: with
`C_M = 0x3fc`, for every word `t` below `2 ^ 32`, `(t >> 6) & C_M = 4 * ((t >> 8) & 0xff)`,
`(t << 2) & C_M = 4 * (t & 0xff)`, `(t >> 22) & C_M = 4 * ((t >> 24) & 0xff)` and
`(t >> 14) & C_M = 4 * ((t >> 16) & 0xff)`.  Hence every byte offset used by the
`CAST_PTR` and `CAST_PTR2` variants is a multiple of 4 in `0 .. 1020`, so the four bytes
it addresses end within 1024 bytes, and with 4-byte entries the read at that offset
yields the whole entry that the generic variant indexes, which exists in a table of 256
entries. -/
theorem pointer_offsets (W t : Nat) (hW : 32 ≤ W) (ht : t < 2 ^ 32) :
    (C_M = 0x3fc ∧ C_2 = 6 ∧ C_3 = 2 ∧ C_0 = 22 ∧ C_1 = 14) ∧
    ((t >>> C_2) &&& C_M = 4 * ((t >>> 8) &&& 0xff) ∧
      ((t <<< C_3) % 2 ^ W) &&& C_M = 4 * (t &&& 0xff) ∧
      (t >>> C_0) &&& C_M = 4 * ((t >>> 24) &&& 0xff) ∧
      (t >>> C_1) &&& C_M = 4 * ((t >>> 16) &&& 0xff)) ∧
    (∀ off ∈ [(t >>> C_2) &&& C_M, ((t <<< C_3) % 2 ^ W) &&& C_M, (t >>> C_0) &&& C_M,
        (t >>> C_1) &&& C_M],
      off % 4 = 0 ∧ off ≤ 1020 ∧ off + 4 ≤ 1024) ∧
    (∀ tbl : List Nat, tbl.length = 256 →
      loadAt 32 tbl ((t >>> C_2) &&& C_M) = some (tbl.getD ((t >>> 8) &&& 0xff) 0) ∧
      loadAt 32 tbl (((t <<< C_3) % 2 ^ W) &&& C_M) = some (tbl.getD (t &&& 0xff) 0) ∧
      loadAt 32 tbl ((t >>> C_0) &&& C_M) = some (tbl.getD ((t >>> 24) &&& 0xff) 0) ∧
      loadAt 32 tbl ((t >>> C_1) &&& C_M) = some (tbl.getD ((t >>> 16) &&& 0xff) 0)) := by
  have ht32 : t < 2 ^ 32 := ht
  have e2 := offset_C_2 t
  have e3 := offset_C_3 W t hW
  have e0 := offset_C_0 t
  have e1 := offset_C_1 t
  refine ⟨⟨rfl, rfl, rfl, rfl, rfl⟩, ⟨e2, e3, e0, e1⟩, ?_, ?_⟩
  · intro off hoff
    have b2 := mask8_lt (t >>> 8)
    have b3 := mask8_lt t
    have b0 := mask8_lt (t >>> 24)
    have b1 := mask8_lt (t >>> 16)
    simp only [List.mem_cons, List.mem_singleton, List.not_mem_nil, or_false] at hoff
    rcases hoff with h | h | h | h <;> rw [h] <;> omega
  · intro tbl hlen
    rw [e2, e3, e0, e1, loadAt_four_mul, loadAt_four_mul, loadAt_four_mul, loadAt_four_mul]
    exact ⟨table_read _ _ hlen (mask8_lt _), table_read _ _ hlen (mask8_lt _),
      table_read _ _ hlen (mask8_lt _), table_read _ _ hlen (mask8_lt _)⟩

theorem pointer_offsets_witness :
    32 ≤ 32 ∧ 0x1c42acfe < 2 ^ 32 ∧
    ((C_M = 0x3fc ∧ C_2 = 6 ∧ C_3 = 2 ∧ C_0 = 22 ∧ C_1 = 14) ∧
    ((0x1c42acfe >>> C_2) &&& C_M = 4 * ((0x1c42acfe >>> 8) &&& 0xff) ∧
      ((0x1c42acfe <<< C_3) % 2 ^ 32) &&& C_M = 4 * (0x1c42acfe &&& 0xff) ∧
      (0x1c42acfe >>> C_0) &&& C_M = 4 * ((0x1c42acfe >>> 24) &&& 0xff) ∧
      (0x1c42acfe >>> C_1) &&& C_M = 4 * ((0x1c42acfe >>> 16) &&& 0xff)) ∧
    (∀ off ∈ [(0x1c42acfe >>> C_2) &&& C_M, ((0x1c42acfe <<< C_3) % 2 ^ 32) &&& C_M,
        (0x1c42acfe >>> C_0) &&& C_M, (0x1c42acfe >>> C_1) &&& C_M],
      off % 4 = 0 ∧ off ≤ 1020 ∧ off + 4 ≤ 1024) ∧
    (∀ tbl : List Nat, tbl.length = 256 →
      loadAt 32 tbl ((0x1c42acfe >>> C_2) &&& C_M)
        = some (tbl.getD ((0x1c42acfe >>> 8) &&& 0xff) 0) ∧
      loadAt 32 tbl (((0x1c42acfe <<< C_3) % 2 ^ 32) &&& C_M)
        = some (tbl.getD (0x1c42acfe &&& 0xff) 0) ∧
      loadAt 32 tbl ((0x1c42acfe >>> C_0) &&& C_M)
        = some (tbl.getD ((0x1c42acfe >>> 24) &&& 0xff) 0) ∧
      loadAt 32 tbl ((0x1c42acfe >>> C_1) &&& C_M)
        = some (tbl.getD ((0x1c42acfe >>> 16) &&& 0xff) 0))) :=
  ⟨by decide, by decide, pointer_offsets 32 0x1c42acfe (by decide) (by decide)⟩


/-! ## C15: the unparenthesised masks of `CAST_PTR2` -/

/-- C15. The unparenthesised masks of `CAST_PTR2` are harmless.  In
`t=(t OP *p & 0xffffffffL)` the operators `+` and `-` are applied before the mask and `^`
after it; for every `t` and every table entry `p` below `2 ^ 32` and each operator, that
parse and the fully parenthesised one both leave `t` equal to `(t OP p) mod 2^32`, for
every width `W ≥ 32` of the type holding the words.  So when its four reads find the
entries `p0 .. p3`, the `CAST_PTR2` variant succeeds and the value it finally XORs into
`L` is `((p0 OP2 p1) OP3 p2) OP1 p3` modulo `2 ^ 32`, which is below `2 ^ 32`. -/
theorem E_CAST_PTR2_unparenthesised_masks (W : Nat) (S : STables) (n : Nat)
    (op1 op2 op3 : Op) (s : CastState) (km kr : Nat) (hW : 32 ≤ W)
    (hk0 : s.key[n * 2]? = some km) (hk1 : s.key[n * 2 + 1]? = some kr)
    (w p0 p1 p2 p3 : Nat)
    (hw : w = ROTL W ((op1.ap W km s.R) &&& 0xffffffff) kr)
    (h0 : loadAt W S.CAST_S_table0 ((w >>> C_2) &&& C_M) = some p0)
    (h1 : loadAt W S.CAST_S_table1 (((w <<< C_3) % 2 ^ W) &&& C_M) = some p1)
    (h2 : loadAt W S.CAST_S_table2 ((w >>> C_0) &&& C_M) = some p2)
    (h3 : loadAt W S.CAST_S_table3 ((w >>> C_1) &&& C_M) = some p3)
    (b1 : p1 < 2 ^ 32) (b2 : p2 < 2 ^ 32) (b3 : p3 < 2 ^ 32) :
    (∀ t p : Nat, Op.add.apMaskRight W t p = (Op.add.ap W t p) &&& 0xffffffff ∧
      Op.sub.apMaskRight W t p = (Op.sub.ap W t p) &&& 0xffffffff ∧
      Op.xor.apMaskRight W t p = t ^^^ (p &&& 0xffffffff)) ∧
    (∀ (op : Op) (t p : Nat), t < 2 ^ 32 → p < 2 ^ 32 →
      op.apMaskRight W t p = op.wrap32 t p ∧
      (op.ap W t p) &&& 0xffffffff = op.wrap32 t p ∧
      op.apMaskRight W t p < 2 ^ 32) ∧
    op1.wrap32 (op3.wrap32 (op2.wrap32 p0 p1) p2) p3 < 2 ^ 32 ∧
    E_CAST_PTR2 W S n op1 op2 op3 s = some { s with
      L := s.L ^^^ op1.wrap32 (op3.wrap32 (op2.wrap32 p0 p1) p2) p3
      t := op1.wrap32 (op3.wrap32 (op2.wrap32 p0 p1) p2) p3 } := by
  have hparse : ∀ (op : Op) (t p : Nat), t < 2 ^ 32 → p < 2 ^ 32 →
      op.apMaskRight W t p = op.wrap32 t p := by
    intro op t p ht hp
    rw [apMaskRight_eq W op t p ht, ap_mask32 W hW op t p hp]
  refine ⟨fun t p => ⟨rfl, rfl, rfl⟩, ?_, wrap32_lt _ _ _, ?_⟩
  · intro op t p ht hp
    refine ⟨hparse op t p ht hp, ap_mask32 W hW op t p hp, ?_⟩
    rw [hparse op t p ht hp]
    exact wrap32_lt _ _ _
  · subst hw
    unfold E_CAST_PTR2
    rw [hk0, hk1]
    simp only [Option.bind_eq_bind, Option.some_bind, Option.pure_def]
    rw [h0, h1, h2, h3]
    simp only [Option.some_bind]
    rw [ap_mask32 W hW op2 p0 p1 b1, hparse op3 _ p2 (wrap32_lt _ _ _) b2,
      hparse op1 _ p3 (wrap32_lt _ _ _) b3, and_mask32,
      Nat.mod_eq_of_lt (wrap32_lt op1 _ p3)]

theorem E_CAST_PTR2_unparenthesised_masks_witness :
    32 ≤ 64 ∧ zeroState.key[0 * 2]? = some 0 ∧ zeroState.key[0 * 2 + 1]? = some 0 ∧
    0 = ROTL 64 ((Op.xor.ap 64 0 zeroState.R) &&& 0xffffffff) 0 ∧
    loadAt 64 demoTables.CAST_S_table0 ((0 >>> C_2) &&& C_M) = some 0 ∧
    loadAt 64 demoTables.CAST_S_table1 (((0 <<< C_3) % 2 ^ 64) &&& C_M) = some 0xfffffff0 ∧
    loadAt 64 demoTables.CAST_S_table2 ((0 >>> C_0) &&& C_M) = some 5 ∧
    loadAt 64 demoTables.CAST_S_table3 ((0 >>> C_1) &&& C_M) = some 0x80000000 ∧
    0xfffffff0 < 2 ^ 32 ∧ 5 < 2 ^ 32 ∧ 0x80000000 < 2 ^ 32 ∧
    ((∀ t p : Nat, Op.add.apMaskRight 64 t p = (Op.add.ap 64 t p) &&& 0xffffffff ∧
      Op.sub.apMaskRight 64 t p = (Op.sub.ap 64 t p) &&& 0xffffffff ∧
      Op.xor.apMaskRight 64 t p = t ^^^ (p &&& 0xffffffff)) ∧
    (∀ (op : Op) (t p : Nat), t < 2 ^ 32 → p < 2 ^ 32 →
      op.apMaskRight 64 t p = op.wrap32 t p ∧
      (op.ap 64 t p) &&& 0xffffffff = op.wrap32 t p ∧
      op.apMaskRight 64 t p < 2 ^ 32) ∧
    Op.xor.wrap32 (Op.add.wrap32 (Op.sub.wrap32 0 0xfffffff0) 5) 0x80000000 < 2 ^ 32 ∧
    E_CAST_PTR2 64 demoTables 0 .xor .sub .add zeroState = some { zeroState with
      L := zeroState.L ^^^ Op.xor.wrap32 (Op.add.wrap32 (Op.sub.wrap32 0 0xfffffff0) 5)
        0x80000000
      t := Op.xor.wrap32 (Op.add.wrap32 (Op.sub.wrap32 0 0xfffffff0) 5) 0x80000000 }) :=
  ⟨by decide, by decide, by decide, by decide, by decide, by decide, by decide, by decide,
    by decide, by decide, by decide,
    E_CAST_PTR2_unparenthesised_masks 64 demoTables 0 .xor .sub .add zeroState 0 0
      (by decide) (by decide) (by decide) 0 0 0xfffffff0 5 0x80000000
      (by decide) (by decide) (by decide) (by decide) (by decide)
      (by decide) (by decide) (by decide)⟩

end Cast
